import Mathlib

/-!
Verification of the Anaplan SDK asynchronous client
(`anaplan_sdk/_async_client.py`) against its natural-language
specification.  The Python source is shallowly embedded: byte strings
become `List Nat`, HTTP traffic becomes explicit response sequences, and
effectful methods become functions producing result values and event
traces.
-/

namespace Anaplan

/-- Ceiling division on naturals, `(n + c - 1) / c`. -/
def divUp (n c : Nat) : Nat := (n + c - 1) / c

/-- Structural helper for `pyRangeUp`; the fuel bounds the number of
iterations so that the recursion is structural and kernel-evaluable. -/
def pyRangeUpAux : Nat → Nat → Nat → Nat → List Nat
  | 0, _, _, _ => []
  | fuel + 1, start, stop, step =>
    if 0 < step ∧ start < stop then
      start :: pyRangeUpAux fuel (start + step) stop step
    else []

/-- The Python built-in `range(start, stop, step)` for a positive step:
the ascending arithmetic progression from `start`, strictly below
`stop`.  Used by `upload_file` as `range(0, len(content), chunk_size)`. -/
def pyRangeUp (start stop step : Nat) : List Nat :=
  pyRangeUpAux (stop - start) start stop step

/-- The chunk partition computed by `upload_file`:
`[content[i : i + C] for i in range(0, len(content), C)]`.
A Python slice `content[i : i + C]` (clamped at the end of the string)
is `(content.drop i).take C`. -/
def uploadChunks (C : Nat) (content : List Nat) : List (List Nat) :=
  (pyRangeUp 0 content.length C).map (fun i => (content.drop i).take C)

theorem pyRangeUpAux_fuel_irrel :
    ∀ f g start stop step, stop - start ≤ f → stop - start ≤ g →
      pyRangeUpAux f start stop step = pyRangeUpAux g start stop step := by
  intro f
  induction f with
  | zero =>
    intro g start stop step hf _
    cases g with
    | zero => rfl
    | succ g =>
      simp only [pyRangeUpAux]
      rw [if_neg]
      omega
  | succ f ih =>
    intro g start stop step hf hg
    cases g with
    | zero =>
      simp only [pyRangeUpAux]
      rw [if_neg]
      omega
    | succ g =>
      simp only [pyRangeUpAux]
      by_cases h : 0 < step ∧ start < stop
      · rw [if_pos h, if_pos h]
        rw [ih g (start + step) stop step (by omega) (by omega)]
      · rw [if_neg h, if_neg h]

/-- Unfolding equation for `pyRangeUp`. -/
theorem pyRangeUp_eq (start stop step : Nat) :
    pyRangeUp start stop step =
      if 0 < step ∧ start < stop then
        start :: pyRangeUp (start + step) stop step
      else [] := by
  unfold pyRangeUp
  cases h : stop - start with
  | zero =>
    simp only [pyRangeUpAux]
    rw [if_neg]
    omega
  | succ n =>
    simp only [pyRangeUpAux]
    by_cases hc : 0 < step ∧ start < stop
    · rw [if_pos hc, if_pos hc]
      rw [pyRangeUpAux_fuel_irrel n (stop - (start + step)) (start + step) stop step
        (by omega) (by omega)]
    · rw [if_neg hc, if_neg hc]

theorem divUp_of_pos {m s : Nat} (hs : 0 < s) (hm : 0 < m) :
    divUp m s = (m - 1) / s + 1 := by
  unfold divUp
  have h : m + s - 1 = (m - 1) + s := by omega
  rw [h, Nat.add_div_right _ hs]

theorem divUp_zero (s : Nat) : divUp 0 s = 0 := by
  unfold divUp
  rcases Nat.eq_zero_or_pos s with h | h
  · subst h
    rfl
  · exact Nat.div_eq_of_lt (by omega)

theorem divUp_step {m s : Nat} (hs : 0 < s) (hm : 0 < m) :
    divUp m s = 1 + divUp (m - s) s := by
  rcases le_or_lt s m with h | h
  · rcases Nat.eq_zero_or_pos (m - s) with h0 | h0
    · have hms : m = s := by omega
      rw [divUp_of_pos hs hm, h0, divUp_zero, hms]
      rw [Nat.div_eq_of_lt (by omega)]
    · rw [divUp_of_pos hs hm, divUp_of_pos hs h0]
      have h1 : m - 1 = (m - s - 1) + s := by omega
      rw [h1, Nat.add_div_right _ hs]
      omega
  · have h0 : m - s = 0 := by omega
    rw [divUp_of_pos hs hm, h0, divUp_zero]
    rw [Nat.div_eq_of_lt (by omega)]

theorem length_pyRangeUp {step : Nat} (hs : 0 < step) :
    ∀ n start stop, stop - start ≤ n →
      (pyRangeUp start stop step).length = divUp (stop - start) step := by
  intro n
  induction n with
  | zero =>
    intro start stop h
    rw [pyRangeUp_eq, if_neg (by omega)]
    have h0 : stop - start = 0 := by omega
    rw [h0, divUp_zero]
    rfl
  | succ n ih =>
    intro start stop h
    by_cases hc : start < stop
    · rw [pyRangeUp_eq, if_pos ⟨hs, hc⟩]
      simp only [List.length_cons]
      have hb : stop - (start + step) ≤ n := by omega
      rw [ih (start + step) stop hb]
      have h1 : stop - (start + step) = (stop - start) - step := by omega
      have hm : 0 < stop - start := by omega
      rw [h1, divUp_step hs hm]
      omega
    · rw [pyRangeUp_eq, if_neg (by omega)]
      have h0 : stop - start = 0 := by omega
      rw [h0, divUp_zero]
      rfl

theorem getElem?_pyRangeUp {step : Nat} (hs : 0 < step) :
    ∀ i start stop, start + i * step < stop →
      (pyRangeUp start stop step)[i]? = some (start + i * step) := by
  intro i
  induction i with
  | zero =>
    intro start stop h
    rw [pyRangeUp_eq, if_pos ⟨hs, by omega⟩]
    simp
  | succ i ih =>
    intro start stop h
    rw [Nat.succ_mul] at h
    rw [pyRangeUp_eq, if_pos ⟨hs, by omega⟩]
    rw [List.getElem?_cons_succ]
    rw [ih (start + step) stop (by omega)]
    rw [Nat.succ_mul]
    congr 1
    omega

theorem pyRangeUp_shift (s : Nat) :
    ∀ n a b, b - a ≤ n →
      pyRangeUp (a + s) (b + s) s = (pyRangeUp a b s).map (fun x => x + s) := by
  intro n
  induction n with
  | zero =>
    intro a b h
    rw [pyRangeUp_eq, pyRangeUp_eq a b s, if_neg (by omega), if_neg (by omega)]
    rfl
  | succ n ih =>
    intro a b h
    by_cases hc : 0 < s ∧ a < b
    · rw [pyRangeUp_eq, pyRangeUp_eq a b s, if_pos ⟨hc.1, by omega⟩, if_pos hc]
      simp only [List.map_cons]
      have h1 : a + s + s = (a + s) + s := rfl
      rw [h1, ih (a + s) b (by omega)]
    · rw [pyRangeUp_eq, pyRangeUp_eq a b s, if_neg (by omega), if_neg hc]
      rfl

theorem uploadChunks_nil (C : Nat) : uploadChunks C [] = [] := by
  unfold uploadChunks
  rw [pyRangeUp_eq]
  simp

theorem uploadChunks_cons {C : Nat} (hC : 0 < C) (content : List Nat)
    (h : content ≠ []) :
    uploadChunks C content = content.take C :: uploadChunks C (content.drop C) := by
  have hN : 0 < content.length := List.length_pos.mpr h
  unfold uploadChunks
  rw [pyRangeUp_eq, if_pos ⟨hC, hN⟩]
  simp only [List.map_cons, List.drop_zero]
  congr 1
  have hdl : (content.drop C).length = content.length - C := by
    simp [List.length_drop]
  rw [hdl, Nat.zero_add]
  rcases le_or_lt C content.length with hle | hlt
  · have hsplit : content.length = (content.length - C) + C := by omega
    have hshift := pyRangeUp_shift C (content.length - C) 0 (content.length - C)
      (by omega)
    rw [Nat.zero_add] at hshift
    conv_lhs => rw [hsplit]
    rw [hshift, List.map_map]
    apply List.map_congr_left
    intro i _
    simp only [Function.comp_apply]
    rw [List.drop_drop, Nat.add_comm i C]
  · rw [pyRangeUp_eq, if_neg (by omega)]
    have h0 : content.length - C = 0 := by omega
    rw [h0, pyRangeUp_eq, if_neg (by omega)]
    rfl

theorem uploadChunks_join {C : Nat} (hC : 0 < C) :
    ∀ n (content : List Nat), content.length ≤ n →
      (uploadChunks C content).flatten = content := by
  intro n
  induction n with
  | zero =>
    intro content h
    have : content = [] := List.eq_nil_of_length_eq_zero (by omega)
    subst this
    rw [uploadChunks_nil]
    rfl
  | succ n ih =>
    intro content h
    by_cases hnil : content = []
    · subst hnil
      rw [uploadChunks_nil]
      rfl
    · rw [uploadChunks_cons hC content hnil]
      rw [List.flatten_cons]
      have hlen : (content.drop C).length ≤ n := by
        have hN : 0 < content.length := List.length_pos.mpr hnil
        simp only [List.length_drop]
        omega
      rw [ih (content.drop C) hlen]
      exact List.take_append_drop C content

theorem uploadChunks_length {C : Nat} (hC : 0 < C) (content : List Nat) :
    (uploadChunks C content).length = divUp content.length C := by
  unfold uploadChunks
  rw [List.length_map]
  have := length_pyRangeUp hC (content.length - 0) 0 content.length (by omega)
  simpa using this

theorem uploadChunks_getElem? {C : Nat} (hC : 0 < C) (content : List Nat)
    (i : Nat) (hi : i < (uploadChunks C content).length) :
    (uploadChunks C content)[i]? = some ((content.drop (i * C)).take C) := by
  have hN : i * C < content.length := by
    rw [uploadChunks_length hC] at hi
    by_cases h0 : content.length = 0
    · rw [h0, divUp_zero] at hi
      omega
    · have h1 : i + 1 ≤ divUp content.length C := hi
      unfold divUp at h1
      rw [Nat.le_div_iff_mul_le hC] at h1
      rw [Nat.succ_mul] at h1
      omega
  unfold uploadChunks
  rw [List.getElem?_map]
  have hg := getElem?_pyRangeUp hC i 0 content.length (by omega)
  rw [Nat.zero_add] at hg
  rw [hg]
  rfl

/-- **C2**: For every content of length `N` uploaded via `upload_file` with
configured chunk size `C > 0`, the partition produces exactly `⌈N / C⌉`
chunks (0 chunks when `N = 0`), chunk `i` is exactly the bytes
`[i*C, min ((i+1)*C) N)` of the content, and concatenating the chunks in
index order reproduces the original content exactly. -/
theorem c2_upload_chunking (C : Nat) (content : List Nat) (hC : 0 < C) :
    (uploadChunks C content).length = divUp content.length C
    ∧ (content = [] → uploadChunks C content = [])
    ∧ (∀ i, i < (uploadChunks C content).length →
        (uploadChunks C content)[i]? = some ((content.drop (i * C)).take C)
        ∧ ((content.drop (i * C)).take C).length
          = min ((i + 1) * C) content.length - i * C)
    ∧ (uploadChunks C content).flatten = content := by
  refine ⟨uploadChunks_length hC content, ?_, ?_, ?_⟩
  · intro h
    subst h
    exact uploadChunks_nil C
  · intro i hi
    refine ⟨uploadChunks_getElem? hC content i hi, ?_⟩
    simp only [List.length_take, List.length_drop]
    rw [Nat.succ_mul]
    omega
  · exact uploadChunks_join hC (content.length) content (Nat.le_refl _)

/-- Witness for `c2_upload_chunking` at chunk size 2 and a five-byte
content. -/
theorem c2_upload_chunking_witness :
    0 < 2
    ∧ ((uploadChunks 2 [3, 1, 4, 1, 5]).length = divUp (List.length [3, 1, 4, 1, 5]) 2
      ∧ (([3, 1, 4, 1, 5] : List Nat) = [] → uploadChunks 2 [3, 1, 4, 1, 5] = [])
      ∧ (∀ i, i < (uploadChunks 2 [3, 1, 4, 1, 5]).length →
          (uploadChunks 2 [3, 1, 4, 1, 5])[i]?
            = some ((([3, 1, 4, 1, 5] : List Nat).drop (i * 2)).take 2)
          ∧ ((([3, 1, 4, 1, 5] : List Nat).drop (i * 2)).take 2).length
            = min ((i + 1) * 2) (List.length [3, 1, 4, 1, 5]) - i * 2)
      ∧ (uploadChunks 2 [3, 1, 4, 1, 5]).flatten = [3, 1, 4, 1, 5]) :=
  ⟨by decide, c2_upload_chunking 2 [3, 1, 4, 1, 5] (by decide)⟩

/-! ## Upload request trace (`upload_file`, `_set_chunk_count`) -/

/-- A request issued by `upload_file`: the chunk-count declaration
(`POST .../files/{file_id}` with `{"chunkCount": n}` via
`_set_chunk_count`) or one chunk transmission
(`PUT .../files/{file_id}/chunks/{index}` via `_upload_chunk`). -/
inductive UploadEvent
  | setChunkCount (file_id : Nat) (n : Nat)
  | putChunk (file_id : Nat) (index : Nat) (chunk : List Nat)
deriving DecidableEq

/-- The sequence of requests issued by one `upload_file` invocation:
`await self._set_chunk_count(file_id, len(chunks))` runs to completion
first, then `gather` issues one `_upload_chunk(file_id, index, chunk)`
per `(index, chunk)` of `enumerate(chunks)`.  The list records the
issued requests; the chunk transmissions may complete in any relative
order, but all of them start only after the declaration completed. -/
def upload_file (C : Nat) (file_id : Nat) (content : List Nat) : List UploadEvent :=
  let chunks := uploadChunks C content
  UploadEvent.setChunkCount file_id chunks.length ::
    (chunks.enum.map fun ic => UploadEvent.putChunk file_id ic.1 ic.2)

/-- The chunk index carried by a transmission event. -/
def chunkIndex : UploadEvent → Option Nat
  | .setChunkCount _ _ => none
  | .putChunk _ i _ => some i

/-- **C4**: Within every single `upload_file` invocation, the
chunk-count declaration to the server strictly precedes every chunk
transmission (it is the head of the request trace and every other
element is a transmission), the declared count equals the number of
chunks actually transmitted, and every chunk index in
`[0, chunk_count)` is transmitted exactly once — no index skipped or
duplicated (the transmitted indices are exactly `List.range count`). -/
theorem c4_upload_order (C file_id : Nat) (content : List Nat) :
    (upload_file C file_id content).head?
      = some (UploadEvent.setChunkCount file_id (uploadChunks C content).length)
    ∧ (upload_file C file_id content).tail.length = (uploadChunks C content).length
    ∧ (upload_file C file_id content).tail.map chunkIndex
      = (List.range (uploadChunks C content).length).map some := by
  refine ⟨rfl, ?_, ?_⟩
  · simp [upload_file]
  · show ((uploadChunks C content).enum.map
        fun ic => UploadEvent.putChunk file_id ic.1 ic.2).map chunkIndex
      = (List.range (uploadChunks C content).length).map some
    rw [List.map_map]
    have h1 : (chunkIndex ∘ fun ic : Nat × List Nat =>
        UploadEvent.putChunk file_id ic.1 ic.2) = fun ic => some ic.1 := by
      funext ic
      rfl
    rw [h1]
    have h2 : (fun ic : Nat × List Nat => some ic.1)
        = some ∘ (Prod.fst : Nat × List Nat → Nat) := rfl
    rw [h2, ← List.map_map, List.enum_map_fst]

/-! ## The retry coordinator (`_recover_or_raise`, `tenacity.retry`)

`_get`, `_get_binary`, `_post` and `_upload_chunk` are all decorated
with `retry(retry=retry_if_exception_type(ReAuthException),
stop=stop_after_attempt(2))` and funnel every caught `httpx.HTTPError`
into `_recover_or_raise`.  The HTTP outcome of each attempt is a
`Resp`; the raised Python exceptions are `AppErr`. -/

/-- An `httpx.HTTPError`: either an `HTTPStatusError` carrying the
response status code (raised by `response.raise_for_status()`), or any
other transport-level error. -/
inductive HttpErr
  | statusError (code : Nat)
  | transportError
deriving DecidableEq

/-- An exception escaping the request helpers of the client. -/
inductive AppErr
  | http (e : HttpErr)
  | reAuthException (cause : HttpErr)
  | invalidIdentifierException (cause : HttpErr)
  | retryError (last : AppErr)
deriving DecidableEq

/-- The network outcome of one attempt: a reply with a status code and
a JSON body (modelled opaquely as a string), or a transport failure. -/
inductive Resp
  | reply (code : Nat) (body : String)
  | transportFail
deriving DecidableEq

/-- `_recover_or_raise(error)`: on a 401 status error it re-runs
`_cert_auth`/`_basic_auth` (the `Bool` component records that a
reauthentication was performed) and raises `ReAuthException from
error`; on a 404 status error it raises `InvalidIdentifierException
from error`; anything else is re-raised unchanged. -/
def recover_or_raise : HttpErr → Bool × AppErr
  | .statusError code =>
    if code = 401 then (true, .reAuthException (.statusError code))
    else if code = 404 then (false, .invalidIdentifierException (.statusError code))
    else (false, .http (.statusError code))
  | .transportError => (false, .http .transportError)

/-- `response.raise_for_status()`: raises `HTTPStatusError` exactly for
4xx/5xx status codes. -/
def raise_for_status (code : Nat) : Option HttpErr :=
  if 400 ≤ code then some (.statusError code) else none

/-- One attempt of `_get`/`_get_binary`: issue the request, call
`raise_for_status`, return `response.json()`/`response.content` on
success; any `HTTPError` goes through `_recover_or_raise`.  Returns
(reauthentication performed, result). -/
def get_attempt (r : Resp) : Bool × Except AppErr String :=
  match r with
  | .reply code body =>
    match raise_for_status code with
    | none => (false, .ok body)
    | some e =>
      let br := recover_or_raise e
      (br.1, .error br.2)
  | .transportFail =>
    let br := recover_or_raise .transportError
    (br.1, .error br.2)

/-- One attempt of `_post`: issue the request and return
`response.json()` directly — the source never calls
`raise_for_status` here, so a status error can never be raised; only
transport-level `HTTPError`s reach `_recover_or_raise`. -/
def post_attempt (r : Resp) : Bool × Except AppErr String :=
  match r with
  | .reply _ body => (false, .ok body)
  | .transportFail =>
    let br := recover_or_raise .transportError
    (br.1, .error br.2)

/-- One attempt of `_upload_chunk`: PUT the compressed chunk, call
`raise_for_status`, return `None`; any `HTTPError` goes through
`_recover_or_raise`. -/
def put_attempt (r : Resp) : Bool × Except AppErr Unit :=
  match r with
  | .reply code _ =>
    match raise_for_status code with
    | none => (false, .ok ())
    | some e =>
      let br := recover_or_raise e
      (br.1, .error br.2)
  | .transportFail =>
    let br := recover_or_raise .transportError
    (br.1, .error br.2)

/-- Does `retry_if_exception_type(ReAuthException)` match? -/
def isReAuth : AppErr → Bool
  | .reAuthException _ => true
  | _ => false

deriving instance DecidableEq for Except

/-- Result of a `tenacity`-wrapped call: the value or the escaping
exception, the number of attempts made, and the number of
reauthentications performed along the way. -/
structure CallOutcome (α : Type) where
  result : Except AppErr α
  attempts : Nat
  reauths : Nat
deriving DecidableEq

/-- The `tenacity` retry loop with
`retry=retry_if_exception_type(ReAuthException)` and default
`reraise=False`: run the attempt; on success return; on an exception
that is not a `ReAuthException` re-raise it as-is; on a
`ReAuthException` retry while retries remain, and once
`stop_after_attempt` trips, raise `RetryError` wrapping the last
exception.  `remaining` is the number of retries still permitted, `n`
the 1-based attempt number; `responses` gives the network outcome of
each attempt (0-based). -/
def tenacityRun (att : Resp → Bool × Except AppErr α) (responses : Nat → Resp) :
    Nat → Nat → Nat → CallOutcome α
  | remaining, n, reauths =>
    match att (responses (n - 1)) with
    | (b, .ok a) => ⟨.ok a, n, reauths + (if b then 1 else 0)⟩
    | (b, .error e) =>
      if isReAuth e then
        match remaining with
        | r + 1 => tenacityRun att responses r (n + 1) (reauths + (if b then 1 else 0))
        | 0 => ⟨.error (.retryError e), n, reauths + (if b then 1 else 0)⟩
      else ⟨.error e, n, reauths + (if b then 1 else 0)⟩

/-- `_get` / `_get_binary` under `stop_after_attempt(2)`: at most one
retry beyond the first attempt. -/
def get_call (responses : Nat → Resp) : CallOutcome String :=
  tenacityRun get_attempt responses 1 1 0

/-- `_post` under `stop_after_attempt(2)`. -/
def post_call (responses : Nat → Resp) : CallOutcome String :=
  tenacityRun post_attempt responses 1 1 0

/-- `_upload_chunk` under `stop_after_attempt(2)`. -/
def upload_chunk_call (responses : Nat → Resp) : CallOutcome Unit :=
  tenacityRun put_attempt responses 1 1 0

/-- Attempt counts never exceed 2 under `stop_after_attempt(2)`. -/
theorem tenacityRun_start_attempts_le {α : Type}
    (att : Resp → Bool × Except AppErr α) (responses : Nat → Resp) :
    (tenacityRun att responses 1 1 0).attempts ≤ 2 := by
  unfold tenacityRun
  split
  · simp
  · split
    · unfold tenacityRun
      split
      · simp
      · split
        · simp
        · simp
    · simp

/-- **C1** (failing input): `_post` never calls
`response.raise_for_status()`, so a 401 reply to a POST (for example
`invoke_action` or `_set_chunk_count`) is returned as its parsed JSON
body with no reauthentication and no retry — while the same 401 on
`_get` triggers a reauthentication and a retry (and, after a second
401, a second reauthentication and a `RetryError` wrapping the
`ReAuthException`, not the original `HTTPStatusError`). -/
theorem c1_post_401_no_reauth :
    post_call (fun _ => Resp.reply 401 "errorBody")
      = { result := Except.ok "errorBody", attempts := 1, reauths := 0 }
    ∧ get_call (fun _ => Resp.reply 401 "errorBody")
      = { result := Except.error
            (AppErr.retryError (AppErr.reAuthException (HttpErr.statusError 401))),
          attempts := 2, reauths := 2 } := by
  exact ⟨rfl, rfl⟩

/-- **C5** (failing input): a 404 reply on `_get` and `_upload_chunk`
surfaces as `InvalidIdentifierException` (the unknown-identifier
failure), but the same 404 on `_post` — also a resource call with the
`AnaplanAuthToken` header — is returned as its parsed JSON body because
`_post` never calls `raise_for_status`. -/
theorem c5_post_404_returns_body :
    post_call (fun _ => Resp.reply 404 "errorBody")
      = { result := Except.ok "errorBody", attempts := 1, reauths := 0 }
    ∧ get_call (fun _ => Resp.reply 404 "errorBody")
      = { result := Except.error
            (AppErr.invalidIdentifierException (HttpErr.statusError 404)),
          attempts := 1, reauths := 0 }
    ∧ upload_chunk_call (fun _ => Resp.reply 404 "errorBody")
      = { result := Except.error
            (AppErr.invalidIdentifierException (HttpErr.statusError 404)),
          attempts := 1, reauths := 0 } := by
  exact ⟨rfl, rfl, rfl⟩

/-! ## The task invoker (`run_action`) -/

/-- Python list/`String` containment helper: `leadsWith needle hay` is
true when `needle` is an initial segment of `hay`. -/
def leadsWith [DecidableEq α] : List α → List α → Bool
  | [], _ => true
  | _ :: _, [] => false
  | a :: as, b :: bs => decide (a = b) && leadsWith as bs

/-- The Python expression `needle in hay` on sequences: some tail of `hay` starts
with `needle`. -/
def containsSeq [DecidableEq α] (needle : List α) : List α → Bool
  | [] => leadsWith needle []
  | b :: bs => leadsWith needle (b :: bs) || containsSeq needle bs

/-- The Python expression `needle in hay` on strings (substring containment). -/
def strContainsPy (needle hay : String) : Bool :=
  containsSeq needle.data hay.data

/-- The loop guard of `run_action`:
`"COMPLETE" in task_status.get("taskState")`. -/
def containsComplete (s : String) : Bool := strContainsPy "COMPLETE" s

/-- The `task.result` object of a task-status reply. -/
structure TaskResult where
  successful : Bool
deriving DecidableEq

/-- The `task` object of a task-status reply: `taskState` and
`result.successful`. -/
structure TaskStatus where
  taskState : String
  result : TaskResult
deriving DecidableEq

/-- The polling loop of `run_action`: fetch status `i`; while
`"COMPLETE" not in taskState`, fetch the next one.  `fuel` bounds the
number of fetches (the source may poll forever; `none` models that no
terminal status was reached within `fuel` polls). -/
def findTerminal (statuses : Nat → TaskStatus) : Nat → Nat → Option TaskStatus
  | _, 0 => none
  | i, fuel + 1 =>
    if containsComplete (statuses i).taskState then some (statuses i)
    else findTerminal statuses (i + 1) fuel

/-- Outcome of `run_action`: normal return or a raised
`AnaplanActionError` with its message. -/
inductive RunResult
  | ok
  | actionError (msg : String)
deriving DecidableEq

/-- The error message raised by `run_action` (an f-string naming the
task identifier, wrapped in single quotes written here as \x27). -/
def actionErrMsg (task_id : String) : String :=
  "Task \x27" ++ task_id ++ "\x27 completed with errors."

/-- `run_action`: poll until `"COMPLETE" in taskState`; then raise
`AnaplanActionError` iff `taskState == "COMPLETE"` (exact equality) and
`result.successful` is falsy. -/
def run_action (task_id : String) (statuses : Nat → TaskStatus) (fuel : Nat) :
    Option RunResult :=
  match findTerminal statuses 0 fuel with
  | none => none
  | some s =>
    if s.taskState = "COMPLETE" ∧ s.result.successful = false then
      some (.actionError (actionErrMsg task_id))
    else some .ok

theorem findTerminal_contains (statuses : Nat → TaskStatus) :
    ∀ fuel i s, findTerminal statuses i fuel = some s →
      containsComplete s.taskState = true := by
  intro fuel
  induction fuel with
  | zero =>
    intro i s h
    exact absurd h (by simp [findTerminal])
  | succ fuel ih =>
    intro i s h
    unfold findTerminal at h
    by_cases hc : containsComplete (statuses i).taskState = true
    · rw [if_pos hc] at h
      injection h with h
      rw [← h]
      exact hc
    · rw [if_neg hc] at h
      exact ih (i + 1) s h

/-- **C3** counterexample: with a status whose `taskState` is
`"COMPLETED"` — it contains the terminal marker `"COMPLETE"`, so the
polling loop exits — and `successful = false`, `run_action` returns
normally instead of raising the action-completed-with-errors failure,
because the raise condition tests `taskState == "COMPLETE"` by exact
equality while the loop tests substring containment. -/
theorem c3_counterexample :
    run_action "task7" (fun _ => ⟨"COMPLETED", ⟨false⟩⟩) 1 = some RunResult.ok
    ∧ containsComplete "COMPLETED" = true
    ∧ (TaskStatus.mk "COMPLETED" ⟨false⟩).result.successful = false := by
  decide

/-- **C3** (amended): `run_action` polls until `taskState` contains the
terminal marker `"COMPLETE"`; it raises the action-completed-with-errors
failure (naming the task identifier) if and only if the terminal
status field `taskState` equals `"COMPLETE"` exactly and its `successful`
flag is false; otherwise — including terminal states that merely
contain the marker — it returns normally. -/
theorem c3_run_action_amended (task_id : String) (statuses : Nat → TaskStatus)
    (fuel : Nat) (s : TaskStatus) (h : findTerminal statuses 0 fuel = some s) :
    containsComplete s.taskState = true
    ∧ run_action task_id statuses fuel
      = some (if s.taskState = "COMPLETE" ∧ s.result.successful = false
          then RunResult.actionError (actionErrMsg task_id) else RunResult.ok)
    ∧ actionErrMsg task_id
      = "Task \x27" ++ task_id ++ "\x27 completed with errors." := by
  refine ⟨findTerminal_contains statuses fuel 0 s h, ?_, rfl⟩
  unfold run_action
  rw [h]
  dsimp only
  by_cases hc : s.taskState = "COMPLETE" ∧ s.result.successful = false
  · rw [if_pos hc, if_pos hc]
  · rw [if_neg hc, if_neg hc]

/-- Witness for `c3_run_action_amended` on a one-poll trace that
completes unsuccessfully. -/
theorem c3_run_action_amended_witness :
    findTerminal (fun _ => ⟨"COMPLETE", ⟨false⟩⟩) 0 1
      = some (TaskStatus.mk "COMPLETE" ⟨false⟩)
    ∧ (containsComplete (TaskStatus.mk "COMPLETE" ⟨false⟩).taskState = true
      ∧ run_action "task7" (fun _ => ⟨"COMPLETE", ⟨false⟩⟩) 1
        = some (if (TaskStatus.mk "COMPLETE" ⟨false⟩).taskState = "COMPLETE"
              ∧ (TaskStatus.mk "COMPLETE" ⟨false⟩).result.successful = false
            then RunResult.actionError (actionErrMsg "task7") else RunResult.ok)
      ∧ actionErrMsg "task7"
        = "Task \x27" ++ "task7" ++ "\x27 completed with errors.") :=
  ⟨by decide,
    c3_run_action_amended "task7" (fun _ => ⟨"COMPLETE", ⟨false⟩⟩) 1
      (TaskStatus.mk "COMPLETE" ⟨false⟩) (by decide)⟩

/-! ## The polling delay (`time.sleep` inside `run_action`) -/

/-- The observable actions of the polling loop of `run_action`.
`timeSleep` is `time.sleep` from the standard library — a synchronous,
thread-blocking sleep that suspends no coroutine and stalls the whole
event loop.  `asyncSleep` is the cooperative non-blocking delay
(`asyncio.sleep` awaited) that a cooperative implementation would use;
the source never performs it. -/
inductive PollEffect
  | getTaskStatus (i : Nat)
  | timeSleep (seconds : Nat)
  | asyncSleep (seconds : Nat)
deriving DecidableEq

/-- Effects of the `while "COMPLETE" not in ...` loop body:
`time.sleep(self.status_poll_delay)` followed by the next
`get_task_status` fetch. -/
def pollLoopEffects (delay : Nat) (statuses : Nat → TaskStatus) :
    Nat → Nat → List PollEffect
  | _, 0 => []
  | i, fuel + 1 =>
    if containsComplete (statuses i).taskState then []
    else
      PollEffect.timeSleep delay :: PollEffect.getTaskStatus (i + 1) ::
        pollLoopEffects delay statuses (i + 1) fuel

/-- The effect trace of `run_action`: the initial `get_task_status`
fetch, then the polling loop. -/
def run_action_effects (delay : Nat) (statuses : Nat → TaskStatus)
    (fuel : Nat) : List PollEffect :=
  PollEffect.getTaskStatus 0 :: pollLoopEffects delay statuses 0 fuel

/-- A status trace whose first poll is still in progress and whose
second poll is complete. -/
def demoStatuses : Nat → TaskStatus := fun i =>
  if i = 0 then ⟨"IN_PROGRESS", ⟨true⟩⟩ else ⟨"COMPLETE", ⟨true⟩⟩

/-- **C9** (failing input): whenever at least one extra poll is needed,
`run_action` performs `timeSleep` — the synchronous, thread-blocking
`time.sleep(self.status_poll_delay)` — inside the cooperative task, and
never the cooperative `asyncSleep`; the inter-poll delay is therefore
not a suspension point and blocks concurrently scheduled work. -/
theorem c9_blocking_sleep :
    run_action_effects 1 demoStatuses 2
      = [PollEffect.getTaskStatus 0, PollEffect.timeSleep 1,
          PollEffect.getTaskStatus 1]
    ∧ PollEffect.timeSleep 1 ∈ run_action_effects 1 demoStatuses 2 := by
  decide

/-! ## Certificate authentication (`_cert_auth`) -/

/-- The base64 alphabet (RFC 4648), as used by `base64.b64encode`. -/
def b64Table : String :=
  "ABCDEFGHIJKLMNOPQRSTUVWXYZabcdefghijklmnopqrstuvwxyz0123456789+/"

/-- The base64 digit for a 6-bit value. -/
def b64Char (n : Nat) : Char := b64Table.data.getD n (Char.ofNat 65)

/-- `base64.b64encode` over byte lists, producing the padded base64
text. -/
def b64encode : List Nat → String
  | [] => ""
  | [a] =>
    String.mk [b64Char (a / 4), b64Char (a % 4 * 16)] ++ "=="
  | [a, b] =>
    String.mk [b64Char (a / 4), b64Char (a % 4 * 16 + b / 16),
      b64Char (b % 16 * 4)] ++ "="
  | a :: b :: c :: rest =>
    String.mk [b64Char (a / 4), b64Char (a % 4 * 16 + b / 16),
      b64Char (b % 16 * 4 + c / 64), b64Char (c % 64)] ++ b64encode rest

/-- Sanity check of the base64 encoder against RFC 4648 test vectors
(`"Man" ↦ "TWFu"`, with padding for shorter tails). -/
theorem b64encode_rfc_vectors :
    b64encode [77, 97, 110] = "TWFu"
    ∧ b64encode [77, 97] = "TWE="
    ∧ b64encode [77] = "TQ==" := by
  decide

/-- The padding scheme passed to `RSAPrivateKey.sign`. -/
inductive SigPadding
  | pkcs1v15
deriving DecidableEq

/-- The digest passed to `RSAPrivateKey.sign`. -/
inductive SigHash
  | sha512
deriving DecidableEq

/-- The authentication request built by `_cert_auth`. -/
structure CertAuthRequest where
  authHeader : String
  contentType : String
  encodedData : String
  encodedSignedData : String
deriving DecidableEq

/-- `_cert_auth`: draw `message = os.urandom(150)`; base64-encode the
certificate into the `CACertificate` authorization header; sign the raw
message with `padding.PKCS1v15()` and `hashes.SHA512()`; submit the
JSON payload
`{"encodedData": b64(message), "encodedSignedData": b64(signature)}`.
`urandom` and `sign` model `os.urandom` and the `sign` method of the
loaded private key. -/
def cert_auth (urandom : Nat → List Nat) (certificate : List Nat)
    (sign : List Nat → SigPadding → SigHash → List Nat) : CertAuthRequest :=
  let message := urandom 150
  { authHeader := "CACertificate " ++ b64encode certificate
    contentType := "application/json"
    encodedData := b64encode message
    encodedSignedData :=
      b64encode (sign message SigPadding.pkcs1v15 SigHash.sha512) }

/-- **C6**: the certificate authentication protocol draws a 150-byte
nonce (`os.urandom(150)` — the byte count is checkable here, the
cryptographic randomness lives in the environment), base64-encodes the
client certificate into a `CACertificate` authorization header, signs
the raw (unencoded) nonce with PKCS#1 v1.5 padding and SHA-512,
base64-encodes both the nonce and the signature, and submits them as
the JSON fields `encodedData` and `encodedSignedData`. -/
theorem c6_cert_auth_protocol (urandom : Nat → List Nat)
    (certificate : List Nat)
    (sign : List Nat → SigPadding → SigHash → List Nat)
    (h : (urandom 150).length = 150) :
    (urandom 150).length = 150
    ∧ (cert_auth urandom certificate sign).authHeader
      = "CACertificate " ++ b64encode certificate
    ∧ (cert_auth urandom certificate sign).contentType = "application/json"
    ∧ (cert_auth urandom certificate sign).encodedData
      = b64encode (urandom 150)
    ∧ (cert_auth urandom certificate sign).encodedSignedData
      = b64encode (sign (urandom 150) SigPadding.pkcs1v15 SigHash.sha512) :=
  ⟨h, rfl, rfl, rfl, rfl⟩

/-- Witness for `c6_cert_auth_protocol` with a concrete byte source,
certificate and signer. -/
theorem c6_cert_auth_protocol_witness :
    (List.replicate 150 7).length = 150
    ∧ ((List.replicate 150 7).length = 150
      ∧ (cert_auth (fun n => List.replicate n 7) [77, 78]
            (fun m _ _ => m)).authHeader
        = "CACertificate " ++ b64encode [77, 78]
      ∧ (cert_auth (fun n => List.replicate n 7) [77, 78]
            (fun m _ _ => m)).contentType = "application/json"
      ∧ (cert_auth (fun n => List.replicate n 7) [77, 78]
            (fun m _ _ => m)).encodedData
        = b64encode (List.replicate 150 7)
      ∧ (cert_auth (fun n => List.replicate n 7) [77, 78]
            (fun m _ _ => m)).encodedSignedData
        = b64encode ((fun (m : List Nat) (_ : SigPadding) (_ : SigHash) => m)
            (List.replicate 150 7) SigPadding.pkcs1v15 SigHash.sha512)) :=
  ⟨by simp, c6_cert_auth_protocol (fun n => List.replicate n 7) [77, 78]
    (fun m _ _ => m) (by simp)⟩

/-! ## Private key loading (`_get_private_key`) -/

/-- A Python value that is either `str` or `bytes`, as accepted for
`certificate`, `private_key` and `private_key_password`. -/
inductive StrOrBytes
  | str (s : String)
  | bytes (b : List Nat)
deriving DecidableEq

/-- Python truthiness of a `str`/`bytes` value: empty is falsy. -/
def truthyVal : StrOrBytes → Bool
  | .str s => !(s == "")
  | .bytes b => !b.isEmpty

/-- Python `str.encode()`, modelled as the character codes. -/
def strEncode (s : String) : List Nat := s.data.map Char.toNat

/-- The exceptions `serialization.load_pem_private_key` and the file
read can raise.  Per the documented contract of the `cryptography` library:
`ValueError` when the PEM structure cannot be decoded **or cannot be
decrypted (wrong password)**; `TypeError` on a password mismatch with
an unencrypted/encrypted key; `UnsupportedAlgorithm` for unsupported
key types.  `InvalidKey` is `cryptography.exceptions.InvalidKey`,
raised by key-derivation `verify` — not by `load_pem_private_key`.
`ioError` is the `OSError`/`IOError` from `open()`. -/
inductive KeyLoadErr
  | ioError
  | valueError
  | typeError
  | unsupportedAlgorithm
  | invalidKey
deriving DecidableEq

/-- The handler `except (IOError, InvalidKey, UnsupportedAlgorithm)` of
`_get_private_key`: which load-time exceptions it converts to
`InvalidPrivateKeyException`. -/
def caughtByHandler : KeyLoadErr → Bool
  | .ioError => true
  | .invalidKey => true
  | .unsupportedAlgorithm => true
  | .valueError => false
  | .typeError => false

/-- The key-material selection inside `_get_private_key`: for a `str`
private key, read the named file **when `os.path.isfile(self.certificate)`
holds** (the source tests the certificate, not the private key),
otherwise use `self.private_key.encode()`; a `bytes` private key is
used directly.  `isfile` models `os.path.isfile`, `readFile` the file
read. -/
def key_data (isfile : StrOrBytes → Bool)
    (readFile : String → Except KeyLoadErr (List Nat))
    (certificate private_key : StrOrBytes) : Except KeyLoadErr (List Nat) :=
  match private_key with
  | .str s => if isfile certificate then readFile s else .ok (strEncode s)
  | .bytes b => .ok b

/-- The password normalisation inside `_get_private_key`:
`password = None; if self.private_key_password: ...` — a falsy (absent
or empty) password stays `None`, a `str` password is encoded, `bytes`
is used directly. -/
def key_password (private_key_password : Option StrOrBytes) : Option (List Nat) :=
  match private_key_password with
  | none => none
  | some p =>
    if truthyVal p then
      some (match p with | .str s => strEncode s | .bytes b => b)
    else none

/-- Outcome of `_get_private_key`: the loaded key, the SDK
`InvalidPrivateKeyException`, or an exception the `except` clause does
not catch, escaping as-is. -/
inductive KeyResult
  | key (k : List Nat)
  | invalidPrivateKeyException
  | uncaught (e : KeyLoadErr)
deriving DecidableEq

/-- `_get_private_key`: select the key material, normalise the
password, call `serialization.load_pem_private_key` (modelled by the
`loadPem` parameter), and convert exactly the exceptions matched by
`except (IOError, InvalidKey, UnsupportedAlgorithm)` into
`InvalidPrivateKeyException`. -/
def get_private_key (isfile : StrOrBytes → Bool)
    (readFile : String → Except KeyLoadErr (List Nat))
    (loadPem : List Nat → Option (List Nat) → Except KeyLoadErr (List Nat))
    (certificate private_key : StrOrBytes)
    (private_key_password : Option StrOrBytes) : KeyResult :=
  match
    (do
      let data ← key_data isfile readFile certificate private_key
      loadPem data (key_password private_key_password) :
      Except KeyLoadErr (List Nat))
  with
  | .ok k => .key k
  | .error e =>
    if caughtByHandler e then .invalidPrivateKeyException else .uncaught e

/-- **C7** (failing input): when `load_pem_private_key` fails with the
`ValueError` documented by the library — the exception it raises for
malformed key material and for a wrong key password — the handler
`except (IOError, InvalidKey, UnsupportedAlgorithm)` does not match, so
the failure escapes as the raw `ValueError` instead of the distinct
`InvalidPrivateKeyException` (while an `UnsupportedAlgorithm` failure
is converted as the claim describes). -/
theorem c7_wrong_password_uncaught :
    get_private_key (fun _ => false) (fun _ => Except.ok [])
        (fun _ _ => Except.error KeyLoadErr.valueError)
        (StrOrBytes.bytes [1]) (StrOrBytes.bytes [2])
        (some (StrOrBytes.str "pw"))
      = KeyResult.uncaught KeyLoadErr.valueError
    ∧ KeyResult.uncaught KeyLoadErr.valueError
      ≠ KeyResult.invalidPrivateKeyException
    ∧ get_private_key (fun _ => false) (fun _ => Except.ok [])
        (fun _ _ => Except.error KeyLoadErr.unsupportedAlgorithm)
        (StrOrBytes.bytes [1]) (StrOrBytes.bytes [2])
        (some (StrOrBytes.str "pw"))
      = KeyResult.invalidPrivateKeyException := by
  decide

/-- **C8** (failing input): with `private_key = "key.pem"` naming an
existing file and the certificate supplied as a raw PEM string that is
not a path, `_get_private_key` branches on
`os.path.isfile(self.certificate)` — which is false — and therefore
uses the bytes of the literal path string as the key material instead of
reading the file, although the private-key string names an existing
file (`isfile` returns true for it and the file contents are
`[9, 9]`). -/
theorem c8_isfile_tests_certificate :
    key_data (fun v => decide (v = StrOrBytes.str "key.pem"))
        (fun _ => Except.ok [9, 9])
        (StrOrBytes.str "certdata") (StrOrBytes.str "key.pem")
      = Except.ok (strEncode "key.pem")
    ∧ (fun v => decide (v = StrOrBytes.str "key.pem"))
        (StrOrBytes.str "key.pem") = true
    ∧ key_data (fun v => decide (v = StrOrBytes.str "key.pem"))
        (fun _ => Except.ok [9, 9])
        (StrOrBytes.str "certdata") (StrOrBytes.str "key.pem")
      ≠ Except.ok [9, 9] := by
  decide

/-! ## Client construction (`__init__`) -/

/-- The observable actions of `__init__`.  Calling an `async def`
without awaiting it merely creates a coroutine object and runs none of
its body; `awaitCoroutine` — which would run an authentication protocol
to completion — is never performed by `__init__`. -/
inductive InitEffect
  | createCoroutine (name : String)
  | awaitCoroutine (name : String)
deriving DecidableEq

/-- Python truthiness of an optional string (credential fields). -/
def truthyStr : Option String → Bool
  | none => false
  | some s => !(s == "")

/-- Python truthiness of an optional `str | bytes` field. -/
def truthyOpt : Option StrOrBytes → Bool
  | none => false
  | some v => truthyVal v

/-- The credential-relevant state stored by `__init__`. -/
structure ClientState where
  user_email : Option String
  password : Option String
  certificate : Option StrOrBytes
  private_key : Option StrOrBytes
  auth_token : String
deriving DecidableEq

/-- `__init__`: validate that either basic or certificate credentials
are present (else raise `ValueError`), store the fields with
`self._auth_token = ""`, and evaluate
`self._cert_auth() if certificate else self._basic_auth()` — which
only creates the coroutine object and discards it, never awaiting
it. -/
def client_init (user_email password : Option String)
    (certificate private_key : Option StrOrBytes) :
    Except String (ClientState × List InitEffect) :=
  if !(truthyStr user_email && truthyStr password
      || truthyOpt certificate && truthyOpt private_key) then
    .error
      "Either `certificate` and `private_key` or `user_email` and `password` must be provided."
  else
    .ok
      ({ user_email := user_email, password := password,
          certificate := certificate, private_key := private_key,
          auth_token := "" },
        [if truthyOpt certificate then InitEffect.createCoroutine "_cert_auth"
          else InitEffect.createCoroutine "_basic_auth"])

/-- The authorization header of the authenticated calls
(`_get`, `_get_binary`, `_post`, `_upload_chunk`):
`f"AnaplanAuthToken {self._auth_token}"`. -/
def authHeaderOf (st : ClientState) : String :=
  "AnaplanAuthToken " ++ st.auth_token

/-- **C10**: constructing the client completes no authentication —
`__init__` only creates the `_cert_auth` or `_basic_auth` coroutine
(never awaiting it), so when it returns the stored auth token is still
the empty string and the first authenticated call would carry the
header `"AnaplanAuthToken "` with an empty token. -/
theorem c10_init_no_authentication (user_email password : Option String)
    (certificate private_key : Option StrOrBytes)
    (st : ClientState) (effs : List InitEffect)
    (h : client_init user_email password certificate private_key
      = .ok (st, effs)) :
    st.auth_token = ""
    ∧ effs = [if truthyOpt certificate
        then InitEffect.createCoroutine "_cert_auth"
        else InitEffect.createCoroutine "_basic_auth"]
    ∧ (∀ e ∈ effs, ∃ nm, e = InitEffect.createCoroutine nm)
    ∧ authHeaderOf st = "AnaplanAuthToken " := by
  unfold client_init at h
  by_cases hc : (truthyStr user_email && truthyStr password
      || truthyOpt certificate && truthyOpt private_key) = true
  · rw [hc] at h
    simp only [Bool.not_true, Bool.false_eq_true, if_false] at h
    injection h with h
    injection h with h1 h2
    subst h1
    subst h2
    refine ⟨rfl, rfl, ?_, ?_⟩
    · intro e he
      by_cases hcert : truthyOpt certificate = true
      · rw [hcert] at he
        simp at he
        exact ⟨"_cert_auth", by rw [he]⟩
      · rw [Bool.not_eq_true] at hcert
        rw [hcert] at he
        simp at he
        exact ⟨"_basic_auth", by rw [he]⟩
    · rfl
  · rw [Bool.not_eq_true] at hc
    rw [hc] at h
    simp at h

/-- Witness for `c10_init_no_authentication` with basic credentials. -/
theorem c10_init_no_authentication_witness :
    client_init (some "u@example.com") (some "pw") none none
      = Except.ok
          ({ user_email := some "u@example.com", password := some "pw",
              certificate := none, private_key := none, auth_token := "" },
            [InitEffect.createCoroutine "_basic_auth"])
    ∧ (({ user_email := some "u@example.com", password := some "pw",
          certificate := none, private_key := none,
          auth_token := "" } : ClientState).auth_token = ""
      ∧ [InitEffect.createCoroutine "_basic_auth"]
        = [if truthyOpt none then InitEffect.createCoroutine "_cert_auth"
            else InitEffect.createCoroutine "_basic_auth"]
      ∧ (∀ e ∈ [InitEffect.createCoroutine "_basic_auth"],
          ∃ nm, e = InitEffect.createCoroutine nm)
      ∧ authHeaderOf
          { user_email := some "u@example.com", password := some "pw",
            certificate := none, private_key := none, auth_token := "" }
        = "AnaplanAuthToken ") :=
  ⟨by decide,
    c10_init_no_authentication (some "u@example.com") (some "pw") none none
      _ _ (by decide)⟩

end Anaplan
